import Mathlib

/-!
Verification of the Qwen2.5-Math-Classifier training pipeline.

The development embeds, as Lean functions:
  * the selective parameter-freezing policy of
    `src/utils/llama32/create_llama32.py` (`create_llama32_classifier`),
    including Python's `range` over negative bounds and PyTorch
    `ModuleList` negative indexing;
  * the side-effect and option ordering of `src/main.py` (`main`);
  * the data-parallel/gradient-averaging, batch-splitting, checkpoint
    cadence, metric aggregation and numerical-failure semantics that the
    design document states for the training loop (whose module
    `utils/train.py` and the external `Accelerator` are collaborators of
    the code under `src/`, hence modelled from the specification where
    noted).
-/

namespace QwenClassifier

/-- A parameter of the composed classifier model.  The `Llama32Classifier`
model used by `create_llama32_classifier` partitions its parameters into the
embedding table (`llama_base.embed_tokens`), the decoder blocks
(`llama_base.layers[b]`), the final norm (`llama_base.norm`) and the
classification head (`classifier`); `i` indexes the individual tensors of a
group. -/
inductive ParamId where
  | head (i : Nat)
  | embed (i : Nat)
  | norm (i : Nat)
  | layer (b : Nat) (i : Nat)
deriving DecidableEq

/-- PyTorch `ModuleList.__getitem__` index resolution: a negative index `i`
with `-total ≤ i` addresses block `total + i`; an index out of
`[-total, total)` raises `IndexError` (modelled as `none`). -/
def pyGetIdx (total : Nat) (i : Int) : Option Nat :=
  if 0 ≤ i then
    if i < (total : Int) then some i.toNat else none
  else
    if -(total : Int) ≤ i then some (i + total).toNat else none

/-- Python `range(lo, hi)` as a list of integers. -/
def pyRange (lo hi : Int) : List Int :=
  (List.range (hi - lo).toNat).map (fun k : Nat => lo + (k : Int))

/-- `for param in model.classifier.parameters(): param.requires_grad = True`. -/
def setHead (f : ParamId → Bool) : ParamId → Bool :=
  fun p =>
    match p with
    | .head _ => true
    | _ => f p

/-- `for param in model.llama_base.embed_tokens.parameters(): param.requires_grad = True`. -/
def setEmbed (f : ParamId → Bool) : ParamId → Bool :=
  fun p =>
    match p with
    | .embed _ => true
    | _ => f p

/-- `for param in model.llama_base.norm.parameters(): param.requires_grad = True`. -/
def setNorm (f : ParamId → Bool) : ParamId → Bool :=
  fun p =>
    match p with
    | .norm _ => true
    | _ => f p

/-- `for param in model.llama_base.layers[i].parameters(): param.requires_grad = True`
after the `ModuleList` index `i` resolved to block `b`. -/
def setLayer (b : Nat) (f : ParamId → Bool) : ParamId → Bool :=
  fun p =>
    match p with
    | .layer b2 _ => if b2 = b then true else f p
    | _ => f p

/-- The loop `for i in range(total_layers - num_decoder_layers_to_unfreeze,
total_layers)` of `create_llama32_classifier`: each index is resolved by the
`ModuleList`, and an out-of-bounds index aborts with `IndexError` (`none`). -/
def unfreezeLayersLoop (total : Nat) (idxs : List Int) (f : ParamId → Bool) :
    Option (ParamId → Bool) :=
  match idxs with
  | [] => some f
  | i :: rest =>
    match pyGetIdx total i with
    | none => none
    | some b => unfreezeLayersLoop total rest (setLayer b f)

/-- The first four statements of the freeze policy of
`create_llama32_classifier`: freeze every parameter, unfreeze the classifier
head, then the embedding when `freeze_embedding` is false, then the final
norm when `freeze_norm_layer` is false. -/
def unfreezeHeadEmbedNorm (freeze_norm_layer freeze_embedding : Bool) : ParamId → Bool :=
  let f0 : ParamId → Bool := fun _ => false
  let f1 := setHead f0
  let f2 := if freeze_embedding then f1 else setEmbed f1
  if freeze_norm_layer then f2 else setNorm f2

/-- The freeze policy of `create_llama32_classifier`
(`src/utils/llama32/create_llama32.py`, lines 42-65), for a trunk with
`total` decoder blocks: freeze everything, unfreeze the classifier head,
then the embedding when `freeze_embedding` is false, then the final norm
when `freeze_norm_layer` is false, then the blocks addressed by
`range(total - n, total)` when `n > 0`.  Returns `none` when the decoder
loop raises `IndexError`, otherwise the final `requires_grad` assignment. -/
def create_llama32_classifier (total : Nat) (freeze_norm_layer freeze_embedding : Bool)
    (num_decoder_layers_to_unfreeze : Int) : Option (ParamId → Bool) :=
  if 0 < num_decoder_layers_to_unfreeze then
    unfreezeLayersLoop total
      (pyRange ((total : Int) - num_decoder_layers_to_unfreeze) (total : Int))
      (unfreezeHeadEmbedNorm freeze_norm_layer freeze_embedding)
  else
    some (unfreezeHeadEmbedNorm freeze_norm_layer freeze_embedding)

theorem mem_pyRange (lo hi i : Int) : i ∈ pyRange lo hi ↔ lo ≤ i ∧ i < hi := by
  unfold pyRange
  rw [List.mem_map]
  constructor
  · rintro ⟨k, hk, hik⟩
    rw [List.mem_range] at hk
    have hik2 : lo + (k : Int) = i := hik
    omega
  · rintro ⟨h1, h2⟩
    refine ⟨(i - lo).toNat, ?_, ?_⟩
    · rw [List.mem_range]
      omega
    · show lo + ((i - lo).toNat : Int) = i
      omega

theorem setLayer_char (b : Nat) (f : ParamId → Bool) (p : ParamId) :
    setLayer b f p = true ↔ (∃ j, p = ParamId.layer b j) ∨ f p = true := by
  cases p <;> simp [setLayer]

theorem unfreezeLayersLoop_char (total : Nat) (idxs : List Int) (f g : ParamId → Bool)
    (h : unfreezeLayersLoop total idxs f = some g) (p : ParamId) :
    g p = true ↔
      f p = true ∨ ∃ b j, p = ParamId.layer b j ∧ ∃ i ∈ idxs, pyGetIdx total i = some b := by
  induction idxs generalizing f with
  | nil =>
    simp only [unfreezeLayersLoop, Option.some.injEq] at h
    subst h
    simp
  | cons i rest ih =>
    simp only [unfreezeLayersLoop] at h
    cases hb : pyGetIdx total i with
    | none => rw [hb] at h; exact absurd h (by simp)
    | some b =>
      rw [hb] at h
      rw [ih _ h, setLayer_char]
      constructor
      · rintro ((⟨j, rfl⟩ | hf) | ⟨b2, j, rfl, i2, hi2, hres⟩)
        · exact Or.inr ⟨b, j, rfl, i, by simp, hb⟩
        · exact Or.inl hf
        · exact Or.inr ⟨b2, j, rfl, i2, by simp [hi2], hres⟩
      · rintro (hf | ⟨b2, j, rfl, i2, hi2, hres⟩)
        · exact Or.inl (Or.inr hf)
        · rcases List.mem_cons.mp hi2 with rfl | hi2
          · rw [hb] at hres
            exact Or.inl (Or.inl ⟨j, by simp_all⟩)
          · exact Or.inr ⟨b2, j, rfl, i2, hi2, hres⟩

theorem unfreezeLayersLoop_isSome (total : Nat) (idxs : List Int) (f : ParamId → Bool) :
    (unfreezeLayersLoop total idxs f).isSome = true ↔
      ∀ i ∈ idxs, (pyGetIdx total i).isSome = true := by
  induction idxs generalizing f with
  | nil => simp [unfreezeLayersLoop]
  | cons i rest ih =>
    simp only [unfreezeLayersLoop]
    cases hb : pyGetIdx total i with
    | none => simp [hb]
    | some b => simp [hb, ih]

theorem pyGetIdx_of_nonneg (total : Nat) (i : Int) (h0 : 0 ≤ i) (h1 : i < (total : Int)) :
    pyGetIdx total i = some i.toNat := by
  simp [pyGetIdx, h0, h1]

theorem unfreezeHeadEmbedNorm_char (fn fe : Bool) (p : ParamId) :
    unfreezeHeadEmbedNorm fn fe p = true ↔
      ((∃ i, p = ParamId.head i) ∨
       (fe = false ∧ ∃ i, p = ParamId.embed i) ∨
       (fn = false ∧ ∃ i, p = ParamId.norm i)) := by
  cases fn <;> cases fe <;> cases p <;>
    simp [unfreezeHeadEmbedNorm, setHead, setEmbed, setNorm]

/-- The trainable set that the freeze policy produces, as a predicate: head,
embedding when unfrozen, norm when unfrozen, and every block addressed by the
decoder loop (through `ModuleList` index resolution). -/
def freezeUnion (total : Nat) (fn fe : Bool) (n : Int) (p : ParamId) : Prop :=
  (∃ i, p = ParamId.head i) ∨
  (fe = false ∧ ∃ i, p = ParamId.embed i) ∨
  (fn = false ∧ ∃ i, p = ParamId.norm i) ∨
  (∃ b j, p = ParamId.layer b j ∧ 0 < n ∧
     ∃ i ∈ pyRange ((total : Int) - n) (total : Int), pyGetIdx total i = some b)

/-- The head/embedding/norm unfreezing applied after (instead of before) the
decoder-layer loop; used to show the branches of the freeze policy commute. -/
def applyHeadEmbedNormAfter (fn fe : Bool) (g : ParamId → Bool) : ParamId → Bool :=
  setHead (if fe then (if fn then g else setNorm g)
           else setEmbed (if fn then g else setNorm g))

/-- The freeze policy with its branches reordered: decoder-layer loop first
(starting from the all-frozen assignment), then norm, then embedding, then
head. -/
def create_llama32_classifier_alt (total : Nat) (fn fe : Bool) (n : Int) :
    Option (ParamId → Bool) :=
  Option.map (applyHeadEmbedNormAfter fn fe)
    (if 0 < n then
       unfreezeLayersLoop total (pyRange ((total : Int) - n) (total : Int)) (fun _ => false)
     else
       some (fun _ => false))

theorem applyHeadEmbedNormAfter_char (fn fe : Bool) (g : ParamId → Bool) (p : ParamId) :
    applyHeadEmbedNormAfter fn fe g p = true ↔
      (unfreezeHeadEmbedNorm fn fe p = true ∨ g p = true) := by
  cases fn <;> cases fe <;> cases p <;>
    simp [applyHeadEmbedNormAfter, unfreezeHeadEmbedNorm, setHead, setEmbed, setNorm]

theorem bool_eq_of_true_iff {a b : Bool} (h : a = true ↔ b = true) : a = b := by
  cases a <;> cases b <;> simp_all

/-- C1: for every configuration with `0 ≤ num_decoder_layers_to_unfreeze ≤ total`
decoder blocks, `create_llama32_classifier` succeeds and the trainable
(`requires_grad = true`) parameters are exactly the classifier-head
parameters, plus the embedding parameters when `freeze_embedding` is false,
plus the final-norm parameters when `freeze_norm_layer` is false, plus all
parameters of the last `num_decoder_layers_to_unfreeze` decoder blocks;
every other parameter stays frozen, and `n = 0` unfreezes no decoder
block. -/
theorem freeze_policy_trainable_set (total : Nat) (fn fe : Bool) (n : Int)
    (h0 : 0 ≤ n) (h1 : n ≤ (total : Int)) :
    ∃ g, create_llama32_classifier total fn fe n = some g ∧
      ∀ p, g p = true ↔
        ((∃ i, p = ParamId.head i) ∨
         (fe = false ∧ ∃ i, p = ParamId.embed i) ∨
         (fn = false ∧ ∃ i, p = ParamId.norm i) ∨
         (∃ b i, p = ParamId.layer b i ∧ (total : Int) - n ≤ (b : Int) ∧ b < total)) := by
  by_cases hn : 0 < n
  · have hall : ∀ i ∈ pyRange ((total : Int) - n) (total : Int),
        (pyGetIdx total i).isSome = true := by
      intro i hi
      rw [mem_pyRange] at hi
      rw [pyGetIdx_of_nonneg total i (by omega) (by omega)]
      rfl
    have hsome := (unfreezeLayersLoop_isSome total
      (pyRange ((total : Int) - n) (total : Int)) (unfreezeHeadEmbedNorm fn fe)).mpr hall
    obtain ⟨g, hg⟩ := Option.isSome_iff_exists.mp hsome
    refine ⟨g, ?_, ?_⟩
    · simp [create_llama32_classifier, hn, hg]
    · intro p
      rw [unfreezeLayersLoop_char total _ _ g hg p, unfreezeHeadEmbedNorm_char]
      constructor
      · rintro (hb | ⟨b, j, rfl, i, hi, hres⟩)
        · tauto
        · rw [mem_pyRange] at hi
          rw [pyGetIdx_of_nonneg total i (by omega) (by omega)] at hres
          have hbi : b = i.toNat := by
            exact (Option.some.injEq _ _).mp hres.symm
          refine Or.inr (Or.inr (Or.inr ⟨b, j, rfl, by omega, by omega⟩))
      · rintro (h | h | h | ⟨b, j, rfl, hb1, hb2⟩)
        · exact Or.inl (Or.inl h)
        · exact Or.inl (Or.inr (Or.inl h))
        · exact Or.inl (Or.inr (Or.inr h))
        · refine Or.inr ⟨b, j, rfl, (b : Int), ?_, ?_⟩
          · rw [mem_pyRange]
            constructor
            · exact hb1
            · exact_mod_cast hb2
          · rw [pyGetIdx_of_nonneg total (b : Int) (by omega) (by exact_mod_cast hb2)]
            simp
  · have hn0 : n = 0 := by omega
    subst hn0
    refine ⟨unfreezeHeadEmbedNorm fn fe, ?_, ?_⟩
    · simp [create_llama32_classifier]
    · intro p
      rw [unfreezeHeadEmbedNorm_char]
      constructor
      · tauto
      · rintro (h | h | h | ⟨b, j, rfl, hb1, hb2⟩)
        · tauto
        · tauto
        · tauto
        · exfalso
          omega

/-- Witness for C1 at a concrete configuration: a trunk with 3 decoder
blocks, `freeze_norm_layer = false`, `freeze_embedding = true`, unfreezing
the last 2 blocks. -/
theorem freeze_policy_trainable_set_witness :
    ∃ g, create_llama32_classifier 3 false true 2 = some g ∧
      ∀ p, g p = true ↔
        ((∃ i, p = ParamId.head i) ∨
         (true = false ∧ ∃ i, p = ParamId.embed i) ∨
         (false = false ∧ ∃ i, p = ParamId.norm i) ∨
         (∃ b i, p = ParamId.layer b i ∧ (3 : Int) - 2 ≤ (b : Int) ∧ b < 3)) :=
  freeze_policy_trainable_set 3 false true 2 (by decide) (by decide)

/-- C2 counterexample: with a trunk of 2 decoder blocks and
`num_decoder_layers_to_unfreeze = 3` (exceeding the block count),
`create_llama32_classifier` does NOT fail: no `ConfigurationError` exists
anywhere in the source and construction succeeds, because
`range(2 - 3, 2) = [-1, 0, 1]` and the `ModuleList` resolves the negative
index by wrapping around. -/
theorem overlarge_unfreeze_counterexample :
    (create_llama32_classifier 2 false true 3).isSome = true := by decide

/-- C2 (amended): when `num_decoder_layers_to_unfreeze` exceeds the trunk
block count, no `ConfigurationError` is raised.  If it is at most twice the
block count, construction succeeds and every decoder block becomes
trainable (Python negative indexing wraps around); beyond twice the block
count the decoder loop fails with an `IndexError` (modelled as `none`),
still not a `ConfigurationError`. -/
theorem overlarge_unfreeze_no_config_error (total : Nat) (fn fe : Bool) (n : Int)
    (h : (total : Int) < n) :
    (n ≤ 2 * (total : Int) →
      ∃ g, create_llama32_classifier total fn fe n = some g ∧
        ∀ b j, b < total → g (ParamId.layer b j) = true) ∧
    (2 * (total : Int) < n → create_llama32_classifier total fn fe n = none) := by
  have hn : 0 < n := by omega
  constructor
  · intro h2
    have hall : ∀ i ∈ pyRange ((total : Int) - n) (total : Int),
        (pyGetIdx total i).isSome = true := by
      intro i hi
      rw [mem_pyRange] at hi
      by_cases h0 : 0 ≤ i
      · rw [pyGetIdx_of_nonneg total i h0 (by omega)]
        rfl
      · unfold pyGetIdx
        rw [if_neg h0, if_pos (by omega)]
        rfl
    have hsome := (unfreezeLayersLoop_isSome total
      (pyRange ((total : Int) - n) (total : Int)) (unfreezeHeadEmbedNorm fn fe)).mpr hall
    obtain ⟨g, hg⟩ := Option.isSome_iff_exists.mp hsome
    refine ⟨g, by simp [create_llama32_classifier, hn, hg], ?_⟩
    intro b j hb
    rw [unfreezeLayersLoop_char total _ _ g hg]
    refine Or.inr ⟨b, j, rfl, (b : Int), ?_, ?_⟩
    · rw [mem_pyRange]
      constructor
      · omega
      · exact_mod_cast hb
    · rw [pyGetIdx_of_nonneg total (b : Int) (by omega) (by exact_mod_cast hb)]
      simp
  · intro h2
    have hmem : ((total : Int) - n) ∈ pyRange ((total : Int) - n) (total : Int) := by
      rw [mem_pyRange]
      omega
    have hnone : pyGetIdx total ((total : Int) - n) = none := by
      unfold pyGetIdx
      rw [if_neg (by omega), if_neg (by omega)]
    have hns : ¬ (unfreezeLayersLoop total (pyRange ((total : Int) - n) (total : Int))
        (unfreezeHeadEmbedNorm fn fe)).isSome = true := by
      rw [unfreezeLayersLoop_isSome]
      intro hall
      have hx := hall _ hmem
      rw [hnone] at hx
      exact absurd hx (by simp)
    have heq := Option.not_isSome_iff_eq_none.mp hns
    simp [create_llama32_classifier, hn, heq]

/-- Witness for the amended C2 at a concrete input: a trunk with 2 decoder
blocks and `num_decoder_layers_to_unfreeze = 3`. -/
theorem overlarge_unfreeze_no_config_error_witness :
    ((3 : Int) ≤ 2 * ((2 : Nat) : Int) →
      ∃ g, create_llama32_classifier 2 false true 3 = some g ∧
        ∀ b j, b < 2 → g (ParamId.layer b j) = true) ∧
    (2 * ((2 : Nat) : Int) < 3 → create_llama32_classifier 2 false true 3 = none) :=
  overlarge_unfreeze_no_config_error 2 false true 3 (by decide)

/-- C9: whenever `create_llama32_classifier` returns, the final
`requires_grad` assignment is exactly the union of the individual unfreeze
contributions (head, embedding branch, norm branch, decoder-loop branch),
and executing the branches in the reverse order (decoder loop first, then
norm, embedding, head) produces the same assignment: after the initial
freeze-all loop every statement only sets `requires_grad` to true, so no
branch can remove a parameter made trainable by another. -/
theorem freeze_policy_union_order_independent (total : Nat) (fn fe : Bool) (n : Int)
    (h : (create_llama32_classifier total fn fe n).isSome = true) :
    ∃ g, create_llama32_classifier total fn fe n = some g ∧
      (∀ p, (g p = true ↔ freezeUnion total fn fe n p)) ∧
      (∃ g2, create_llama32_classifier_alt total fn fe n = some g2 ∧ ∀ p, g2 p = g p) := by
  by_cases hn : 0 < n
  · have hc : create_llama32_classifier total fn fe n
        = unfreezeLayersLoop total (pyRange ((total : Int) - n) (total : Int))
            (unfreezeHeadEmbedNorm fn fe) := by
      rw [create_llama32_classifier, if_pos hn]
    rw [hc] at h
    obtain ⟨g, hg⟩ := Option.isSome_iff_exists.mp h
    have hvalid := (unfreezeLayersLoop_isSome total
      (pyRange ((total : Int) - n) (total : Int)) (unfreezeHeadEmbedNorm fn fe)).mp
      (by rw [hg]; rfl)
    have h0some := (unfreezeLayersLoop_isSome total
      (pyRange ((total : Int) - n) (total : Int)) (fun _ => false)).mpr hvalid
    obtain ⟨g0, hg0⟩ := Option.isSome_iff_exists.mp h0some
    have ha : create_llama32_classifier_alt total fn fe n
        = some (applyHeadEmbedNormAfter fn fe g0) := by
      rw [create_llama32_classifier_alt, if_pos hn, hg0]
      rfl
    refine ⟨g, by rw [hc, hg], ?_, ?_⟩
    · intro p
      unfold freezeUnion
      rw [unfreezeLayersLoop_char total _ _ g hg p, unfreezeHeadEmbedNorm_char]
      constructor
      · rintro (h1 | ⟨b, j, hp, hi⟩)
        · tauto
        · exact Or.inr (Or.inr (Or.inr ⟨b, j, hp, hn, hi⟩))
      · rintro (h1 | h1 | h1 | ⟨b, j, hp, _, hi⟩)
        · tauto
        · tauto
        · tauto
        · exact Or.inr ⟨b, j, hp, hi⟩
    · refine ⟨applyHeadEmbedNormAfter fn fe g0, ha, ?_⟩
      intro p
      apply bool_eq_of_true_iff
      rw [applyHeadEmbedNormAfter_char, unfreezeLayersLoop_char total _ _ g hg p,
          unfreezeLayersLoop_char total _ _ g0 hg0 p]
      simp
  · have hc : create_llama32_classifier total fn fe n
        = some (unfreezeHeadEmbedNorm fn fe) := by
      rw [create_llama32_classifier, if_neg hn]
    have ha : create_llama32_classifier_alt total fn fe n
        = some (applyHeadEmbedNormAfter fn fe (fun _ => false)) := by
      rw [create_llama32_classifier_alt, if_neg hn]
      rfl
    refine ⟨unfreezeHeadEmbedNorm fn fe, hc, ?_, ?_⟩
    · intro p
      rw [unfreezeHeadEmbedNorm_char]
      unfold freezeUnion
      constructor
      · tauto
      · rintro (h1 | h1 | h1 | ⟨b, j, hp, hn2, _⟩)
        · tauto
        · tauto
        · tauto
        · exact absurd hn2 hn
    · refine ⟨applyHeadEmbedNormAfter fn fe (fun _ => false), ha, ?_⟩
      intro p
      apply bool_eq_of_true_iff
      rw [applyHeadEmbedNormAfter_char]
      simp

/-- Witness for C9 at a concrete configuration: a trunk with 2 decoder
blocks, `freeze_norm_layer = false`, `freeze_embedding = true`, unfreezing
the last block. -/
theorem freeze_policy_union_order_independent_witness :
    ∃ g, create_llama32_classifier 2 false true 1 = some g ∧
      (∀ p, (g p = true ↔ freezeUnion 2 false true 1 p)) ∧
      (∃ g2, create_llama32_classifier_alt 2 false true 1 = some g2 ∧ ∀ p, g2 p = g p) :=
  freeze_policy_union_order_independent 2 false true 1 (by decide)

/-- Modelled from the spec: the external `Accelerator`, constructed in
`src/main.py` (lines 87-93) with `split_batches=True`, gives the training
loop these semantics: one step on a single worker over the whole global
batch of size `B` takes the mean of the per-sample gradients and subtracts
`lr` times this mean from the parameter.  `g s` is the gradient of the
parameter under consideration on sample `s`. -/
def singleWorkerUpdate (B : Nat) (g : Nat → ℚ) (lr θ : ℚ) : ℚ :=
  θ - lr * ((∑ s in Finset.range B, g s) / (B : ℚ))

/-- Modelled from the spec: one data-parallel step on `W` workers, worker `w`
processing the disjoint contiguous shard `[w*k, (w+1)*k)` of size `k = B/W`
of the global batch; each worker takes the mean gradient over its shard and
the per-worker gradients are averaged across workers before the optimizer
step. -/
def dataParallelUpdate (W k : Nat) (g : Nat → ℚ) (lr θ : ℚ) : ℚ :=
  θ - lr * ((∑ w in Finset.range W,
    (∑ j in Finset.range k, g (w * k + j)) / (k : ℚ)) / (W : ℚ))

theorem sum_shards (W k : Nat) (g : Nat → ℚ) :
    ∑ w in Finset.range W, ∑ j in Finset.range k, g (w * k + j)
      = ∑ s in Finset.range (W * k), g s := by
  induction W with
  | zero => simp
  | succ m ih =>
    rw [Finset.sum_range_succ, ih, Nat.succ_mul, Finset.sum_range_add]

/-- C3: for every worker count `W ≥ 1` and deterministic per-sample gradients,
one data-parallel step on `W` workers over disjoint shards of size `B/W` with
gradients averaged across workers produces exactly the same parameter update
as one single-worker step over the whole global batch of size `B` (exact
rational arithmetic models "up to floating-point tolerance"), so the
effective learning rate does not depend on the device count. -/
theorem gradient_averaging_equivalence (W B : Nat) (g : Nat → ℚ) (lr θ : ℚ)
    (hW : 1 ≤ W) (hdvd : W ∣ B) :
    dataParallelUpdate W (B / W) g lr θ = singleWorkerUpdate B g lr θ := by
  obtain ⟨k, rfl⟩ := hdvd
  rw [Nat.mul_div_cancel_left k (by omega)]
  unfold dataParallelUpdate singleWorkerUpdate
  rw [← Finset.sum_div, sum_shards, div_div]
  push_cast
  ring

/-- Witness for C3: two workers, global batch of six samples, gradient of
sample `s` equal to `s`. -/
theorem gradient_averaging_equivalence_witness :
    dataParallelUpdate 2 (6 / 2) (fun s => (s : ℚ)) 1 0
      = singleWorkerUpdate 6 (fun s => (s : ℚ)) 1 0 :=
  gradient_averaging_equivalence 2 6 (fun s => (s : ℚ)) 1 0 (by decide) (by decide)

/-- Modelled from the spec: with `split_batches=True` (src/main.py, line 89)
the configured batch size `B` is the global size; device `w` of `W` receives
the contiguous shard `[w*(B/W), (w+1)*(B/W))` of the global batch indices. -/
def deviceShard (B W w : Nat) : Finset Nat :=
  Finset.Ico (w * (B / W)) ((w + 1) * (B / W))

/-- Total number of examples consumed in one optimizer step across all `W`
devices. -/
def examplesPerStep (B W : Nat) : Nat :=
  ((Finset.range W).biUnion (deviceShard B W)).card

theorem biUnion_shards (W k : Nat) :
    (Finset.range W).biUnion (fun w => Finset.Ico (w * k) ((w + 1) * k))
      = Finset.range (W * k) := by
  induction W with
  | zero => simp
  | succ m ih =>
    have h1 : m * k ≤ (m + 1) * k := Nat.mul_le_mul (Nat.le_succ m) le_rfl
    rw [Finset.range_succ, Finset.biUnion_insert, ih, Finset.range_eq_Ico,
        Finset.union_comm, Finset.Ico_union_Ico_eq_Ico (Nat.zero_le _) h1]

/-- C5: on `W` devices the configured batch size is the global batch size:
the device shards have size `B/W` each, are pairwise disjoint, together
cover exactly the global batch of `B` examples, so one optimizer step
consumes `B` examples in total — not `B * W`. -/
theorem split_batches_global_semantics (B W : Nat) (hW : 0 < W) (hdvd : W ∣ B) :
    (∀ w, (deviceShard B W w).card = B / W) ∧
    (∀ w1 w2, w1 ≠ w2 → Disjoint (deviceShard B W w1) (deviceShard B W w2)) ∧
    ((Finset.range W).biUnion (deviceShard B W) = Finset.range B) ∧
    examplesPerStep B W = B ∧
    (1 < W → 0 < B → examplesPerStep B W ≠ B * W) := by
  have hcard : ∀ w, (deviceShard B W w).card = B / W := by
    intro w
    rw [deviceShard, Nat.card_Ico, Nat.succ_mul, Nat.add_sub_cancel_left]
  have hdis : ∀ w1 w2, w1 < w2 → Disjoint (deviceShard B W w1) (deviceShard B W w2) := by
    intro w1 w2 hlt
    rw [Finset.disjoint_left]
    intro a ha1 ha2
    rw [deviceShard, Finset.mem_Ico] at ha1 ha2
    have hle : (w1 + 1) * (B / W) ≤ w2 * (B / W) :=
      Nat.mul_le_mul (Nat.succ_le_of_lt hlt) le_rfl
    exact absurd (lt_of_lt_of_le (lt_of_lt_of_le ha1.2 hle) ha2.1) (lt_irrefl a)
  have hcover : (Finset.range W).biUnion (deviceShard B W) = Finset.range B := by
    obtain ⟨k, rfl⟩ := hdvd
    have hk : W * k / W = k := Nat.mul_div_cancel_left k hW
    have : deviceShard (W * k) W = fun w => Finset.Ico (w * k) ((w + 1) * k) := by
      funext w
      rw [deviceShard, hk]
    rw [this, biUnion_shards]
  refine ⟨hcard, ?_, hcover, ?_, ?_⟩
  · intro w1 w2 hne
    rcases Nat.lt_or_ge w1 w2 with hlt | hge
    · exact hdis w1 w2 hlt
    · exact (hdis w2 w1 (by omega)).symm
  · rw [examplesPerStep, hcover, Finset.card_range]
  · intro hW2 hB
    rw [examplesPerStep, hcover, Finset.card_range]
    intro hc
    have hBW : B * 1 = B * W := by
      rw [Nat.mul_one]
      exact hc
    have := Nat.eq_of_mul_eq_mul_left hB hBW
    omega

/-- Witness for C5: global batch size 6 on 2 devices. -/
theorem split_batches_global_semantics_witness :
    (∀ w, (deviceShard 6 2 w).card = 6 / 2) ∧
    (∀ w1 w2, w1 ≠ w2 → Disjoint (deviceShard 6 2 w1) (deviceShard 6 2 w2)) ∧
    ((Finset.range 2).biUnion (deviceShard 6 2) = Finset.range 6) ∧
    examplesPerStep 6 2 = 6 ∧
    (1 < 2 → 0 < 6 → examplesPerStep 6 2 ≠ 6 * 2) :=
  split_batches_global_semantics 6 2 (by decide) (by decide)

/-- Modelled from the spec: the train loop (`utils/train.py`, a collaborator
module that is not under `src/`; called from `src/main.py` line 130 with
`checkpoint_every_n_epochs = 2` and `epochs = 5`) requests a checkpoint save
after every epoch `i` (1-based) with `i % cadence == 0` and unconditionally
after the final epoch. -/
def checkpointEpochs (epochs cadence : Nat) : List Nat :=
  ((List.range epochs).map (fun e => e + 1)).filter
    (fun i => i % cadence == 0 || i == epochs)

/-- C4: a checkpoint save is requested after epoch `i` exactly when
`i % cadence = 0` or `i` is the final epoch; in particular cadence 2 over 5
epochs saves after exactly the epochs 2, 4 and 5. -/
theorem checkpoint_cadence (epochs cadence i : Nat) (h1 : 1 ≤ i) (h2 : i ≤ epochs) :
    (i ∈ checkpointEpochs epochs cadence ↔ (i % cadence = 0 ∨ i = epochs)) ∧
    checkpointEpochs 5 2 = [2, 4, 5] := by
  constructor
  · unfold checkpointEpochs
    rw [List.mem_filter]
    simp only [List.mem_map, List.mem_range, Bool.or_eq_true, beq_iff_eq]
    constructor
    · rintro ⟨_, hp⟩
      exact hp
    · intro hp
      refine ⟨⟨i - 1, ?_, ?_⟩, hp⟩
      · omega
      · show i - 1 + 1 = i
        omega
  · decide

/-- Witness for C4 at epoch 4 of the concrete run (5 epochs, cadence 2). -/
theorem checkpoint_cadence_witness :
    (4 ∈ checkpointEpochs 5 2 ↔ (4 % 2 = 0 ∨ 4 = 5)) ∧
    checkpointEpochs 5 2 = [2, 4, 5] :=
  checkpoint_cadence 5 2 4 (by decide) (by decide)

/-- Per-class precision from confusion counts; an unseen class
(`tp + fp = 0`) contributes 0 rather than failing. -/
def precisionOf (tp fp : Nat) : ℚ :=
  if tp + fp = 0 then 0 else (tp : ℚ) / ((tp : ℚ) + (fp : ℚ))

/-- Per-class recall from confusion counts; zero-division contributes 0. -/
def recallOf (tp fn : Nat) : ℚ :=
  if tp + fn = 0 then 0 else (tp : ℚ) / ((tp : ℚ) + (fn : ℚ))

/-- Per-class F1 from confusion counts; zero-division contributes 0. -/
def f1Of (tp fp fn : Nat) : ℚ :=
  if precisionOf tp fp + recallOf tp fn = 0 then 0
  else 2 * precisionOf tp fp * recallOf tp fn / (precisionOf tp fp + recallOf tp fn)

/-- Unweighted mean of the per-class F1 scores computed from one list of
per-class confusion counts `(tp, fp, fn)` — the `f1_avg_mode="macro"` value
requested in `src/main.py` line 138. -/
def meanClassF1 (counts : List (Nat × Nat × Nat)) : ℚ :=
  ((counts.map (fun c => f1Of c.1 c.2.1 c.2.2)).sum) / (counts.length : ℚ)

/-- Classwise sum of two per-class confusion-count lists. -/
def sumCounts (a b : List (Nat × Nat × Nat)) : List (Nat × Nat × Nat) :=
  List.zipWith (fun x y => (x.1 + y.1, x.2.1 + y.2.1, x.2.2 + y.2.2)) a b

/-- Classwise sum of the per-device confusion counts over all devices. -/
def totalCounts (numClasses : Nat) (deviceCounts : List (List (Nat × Nat × Nat))) :
    List (Nat × Nat × Nat) :=
  deviceCounts.foldl sumCounts (List.replicate numClasses (0, 0, 0))

/-- Modelled from the spec: in a multi-device run the Metric Aggregator
(inside `utils/train.py`, a collaborator not under `src/`) reduces (sums)
per-device partial confusion counts across all devices and only then
computes the rates. -/
def reportedEpochF1 (numClasses : Nat) (deviceCounts : List (List (Nat × Nat × Nat))) : ℚ :=
  meanClassF1 (totalCounts numClasses deviceCounts)

/-- The alternative the spec rules out: computing each device's mean-class
F1 separately and averaging the per-device values. -/
def devAveragedF1 (deviceCounts : List (List (Nat × Nat × Nat))) : ℚ :=
  ((deviceCounts.map meanClassF1).sum) / (deviceCounts.length : ℚ)

/-- A two-device, two-class scenario whose class distributions differ across
the device shards. -/
def exDeviceCounts : List (List (Nat × Nat × Nat)) :=
  [[(2, 0, 0), (0, 0, 2)], [(1, 1, 0), (1, 0, 1)]]

/-- C6: the epoch F1 is computed from the classwise-summed confusion counts
of all devices, never by averaging per-device metric values; on a concrete
two-device run whose class distributions differ by shard the two procedures
disagree (22/35 from summed counts against 7/12 from averaging), so the
reported value is the summed-counts one. -/
theorem metric_f1_summed_not_averaged :
    (∀ numClasses deviceCounts,
        reportedEpochF1 numClasses deviceCounts
          = meanClassF1 (totalCounts numClasses deviceCounts)) ∧
    exDeviceCounts.get? 0 ≠ exDeviceCounts.get? 1 ∧
    reportedEpochF1 2 exDeviceCounts = 22 / 35 ∧
    devAveragedF1 exDeviceCounts = 7 / 12 ∧
    reportedEpochF1 2 exDeviceCounts ≠ devAveragedF1 exDeviceCounts := by
  have htot : totalCounts 2 exDeviceCounts = [(3, 1, 0), (1, 0, 3)] := by decide
  have h1 : reportedEpochF1 2 exDeviceCounts = 22 / 35 := by
    rw [reportedEpochF1, htot]
    norm_num [meanClassF1, f1Of, precisionOf, recallOf]
  have h2 : devAveragedF1 exDeviceCounts = 7 / 12 := by
    norm_num [devAveragedF1, exDeviceCounts, meanClassF1, f1Of, precisionOf, recallOf]
  refine ⟨fun _ _ => rfl, by decide, h1, h2, ?_⟩
  rw [h1, h2]
  norm_num

/-- The per-step state of one epoch of the training loop: current
parameters, the number of non-finite losses seen so far in the epoch, and
whether the run has been declared failed. -/
structure TrainState (P : Type) where
  params : P
  nonFiniteCount : Nat
  failed : Bool

/-- Modelled from the spec: per-step failure semantics of the train loop
(`utils/train.py`, a collaborator not under `src/`; the escalation threshold
is left open by the design document and is a parameter here).  A finite loss
applies the optimizer update `upd`; a non-finite loss skips the update,
leaves every parameter unchanged, increments the per-epoch non-finite
counter and declares the run failed exactly when the counter exceeds the
threshold. -/
def numericStep {P : Type} (threshold : Nat) (upd : P → P) (lossIsFinite : Bool)
    (st : TrainState P) : TrainState P :=
  if lossIsFinite then
    { params := upd st.params, nonFiniteCount := st.nonFiniteCount, failed := st.failed }
  else
    { params := st.params, nonFiniteCount := st.nonFiniteCount + 1,
      failed := decide (threshold < st.nonFiniteCount + 1) }

/-- One epoch's worth of steps: `losses` records, per step, whether that
step's loss was finite. -/
def runEpochSteps {P : Type} (threshold : Nat) (upd : P → P) (losses : List Bool)
    (st : TrainState P) : TrainState P :=
  losses.foldl (fun s fin => numericStep threshold upd fin s) st

theorem runEpochSteps_char {P : Type} (threshold : Nat) (upd : P → P) (losses : List Bool)
    (st : TrainState P) (h : st.failed = decide (threshold < st.nonFiniteCount)) :
    (runEpochSteps threshold upd losses st).nonFiniteCount
        = st.nonFiniteCount + losses.count false ∧
    (runEpochSteps threshold upd losses st).failed
        = decide (threshold < st.nonFiniteCount + losses.count false) := by
  induction losses generalizing st with
  | nil =>
    constructor
    · rfl
    · simpa [runEpochSteps] using h
  | cons fin rest ih =>
    have hstep : runEpochSteps threshold upd (fin :: rest) st
        = runEpochSteps threshold upd rest (numericStep threshold upd fin st) := rfl
    cases fin with
    | true =>
      have h2 : (numericStep threshold upd true st).failed
          = decide (threshold < (numericStep threshold upd true st).nonFiniteCount) := by
        simpa [numericStep] using h
      have := ih (numericStep threshold upd true st) h2
      rw [hstep]
      simpa [numericStep, List.count_cons] using this
    | false =>
      have h2 : (numericStep threshold upd false st).failed
          = decide (threshold < (numericStep threshold upd false st).nonFiniteCount) := by
        simp [numericStep]
      have := ih (numericStep threshold upd false st) h2
      rw [hstep]
      rw [this.1, this.2]
      simp [numericStep, List.count_cons]
      constructor
      · omega
      · omega

/-- C7: a step with a non-finite loss does not terminate the run and leaves
every parameter unchanged (the gradient update is skipped), with the run
marked failed exactly when the accumulated non-finite count exceeds the
threshold; over a whole epoch, the run ends failed exactly when the
accumulated count of non-finite losses exceeds the threshold. -/
theorem nonfinite_loss_semantics (P : Type) (threshold : Nat) (upd : P → P)
    (losses : List Bool) (st : TrainState P)
    (h : st.failed = decide (threshold < st.nonFiniteCount)) :
    ((numericStep threshold upd false st).params = st.params) ∧
    ((numericStep threshold upd false st).failed = true ↔
        threshold < st.nonFiniteCount + 1) ∧
    ((runEpochSteps threshold upd losses st).failed = true ↔
        threshold < st.nonFiniteCount + losses.count false) := by
  refine ⟨rfl, by simp [numericStep], ?_⟩
  rw [(runEpochSteps_char threshold upd losses st h).2]
  simp

/-- Witness for C7: threshold 2, three non-finite steps starting from a
fresh epoch state with parameter value 5. -/
theorem nonfinite_loss_semantics_witness :
    ((numericStep 2 (fun x : Nat => x + 1) false ⟨5, 0, false⟩).params
        = (⟨5, 0, false⟩ : TrainState Nat).params) ∧
    ((numericStep 2 (fun x : Nat => x + 1) false ⟨5, 0, false⟩).failed = true ↔
        2 < (⟨5, 0, false⟩ : TrainState Nat).nonFiniteCount + 1) ∧
    ((runEpochSteps 2 (fun x : Nat => x + 1) [false, false, false] ⟨5, 0, false⟩).failed = true ↔
        2 < (⟨5, 0, false⟩ : TrainState Nat).nonFiniteCount
            + [false, false, false].count false) :=
  nonfinite_loss_semantics Nat 2 (fun x : Nat => x + 1) [false, false, false]
    ⟨5, 0, false⟩ (by decide)

/-- A side effect of one process executing `main` (tracker calls and
filesystem writes, plus console output for completeness). -/
inductive Effect where
  | trackerLogin
  | hubLogin
  | consolePrint
  | trackerInit
  | trackerLog (epoch : Nat)
  | checkpointWrite (epoch : Nat)
  | trackerFinish
deriving DecidableEq

/-- The side effects one epoch of the train loop produces on one process.
Modelled from the spec for `utils/train.py` (a collaborator not under
`src/`): per-epoch tracker logging and the cadence/final checkpoint write
are performed only by the coordinator (`is_main_process`). -/
def epochEffects (isMain : Bool) (epochs cadence i : Nat) : List Effect :=
  (if isMain then [Effect.trackerLog i] else []) ++
  (if isMain && (i % cadence == 0 || i == epochs) then [Effect.checkpointWrite i] else [])

/-- The side effects the whole train loop produces on one process. -/
def trainEffects (isMain : Bool) (epochs cadence : Nat) : List Effect :=
  ((List.range epochs).map (fun e => epochEffects isMain epochs cadence (e + 1))).flatten

/-- The side-effect trace of one process executing `main` (`src/main.py`):
`wandb.login` and the hub `login` (lines 32-33, unguarded, every process),
the GPU-count `print` (line 94, every process), `wandb.init` guarded by
`accelerator.is_main_process` (lines 121-127), the train-loop effects, and
`wandb.finish()` (line 144, unguarded, every process). -/
def mainEffects (isMain : Bool) (epochs cadence : Nat) : List Effect :=
  [Effect.trackerLogin, Effect.hubLogin, Effect.consolePrint] ++
  (if isMain then [Effect.trackerInit] else []) ++
  trainEffects isMain epochs cadence ++
  [Effect.trackerFinish]

theorem trainEffects_false (epochs cadence : Nat) : trainEffects false epochs cadence = [] := by
  unfold trainEffects
  have h : ∀ l : List Nat,
      ((l.map (fun e => epochEffects false epochs cadence (e + 1))).flatten) = [] := by
    intro l
    induction l with
    | nil => rfl
    | cons a t ih => simp [epochEffects, ih]
  exact h (List.range epochs)

/-- C8 counterexample: in the concrete run configuration of `src/main.py`
(5 epochs, checkpoint cadence 2), a non-coordinator worker still calls the
external experiment tracker, because `wandb.finish()` on line 144 is
executed unconditionally by every process — refuting the claim that only
the coordinator ever calls the tracker's init/log/finish. -/
theorem noncoordinator_calls_tracker_finish :
    Effect.trackerFinish ∈ mainEffects false 5 2 := by decide

/-- C8 (amended): a non-coordinator worker never calls the tracker's `init`
or `log` and never writes a checkpoint or log file — its only effects are
the tracker `login` and `finish` calls (src/main.py lines 32 and 144 are
not guarded by `is_main_process`), the hub login, and console printing. -/
theorem coordinator_only_init_log_checkpoint (epochs cadence : Nat) (e : Effect)
    (h : e ∈ mainEffects false epochs cadence) :
    e = Effect.trackerLogin ∨ e = Effect.hubLogin ∨ e = Effect.consolePrint ∨
      e = Effect.trackerFinish := by
  rw [mainEffects, trainEffects_false] at h
  simp at h
  tauto

/-- Witness for the amended C8: the finish call of a non-coordinator worker
in the concrete run configuration (5 epochs, cadence 2). -/
theorem coordinator_only_init_log_checkpoint_witness :
    Effect.trackerFinish = Effect.trackerLogin ∨ Effect.trackerFinish = Effect.hubLogin ∨
      Effect.trackerFinish = Effect.consolePrint ∨
      Effect.trackerFinish = Effect.trackerFinish :=
  coordinator_only_init_log_checkpoint 5 2 Effect.trackerFinish (by decide)

/-- An operation of `main` in `src/main.py`. -/
inductive MainOp where
  | setSeed (n : Nat)
  | setCudnnBenchmark (b : Bool)
  | setCudnnDeterministic (b : Bool)
  | suppressDynamoErrors
  | disableTokenizersParallelism
  | fetchSecrets
  | trackerLoginOp
  | hubLoginOp
  | buildModel
  | summarizeModel
  | buildDataloaders
  | buildAccelerator
  | printGpuCount
  | buildLossFn
  | buildOptimizer
  | initTrackerIfMain
  | callTrain
  | finishTracker
deriving DecidableEq, BEq

/-- The sequence of operations of `main` (`src/main.py`, lines 16-147), in
source order: `set_seed(42)`, `torch.backends.cudnn.benchmark = False`,
`torch.backends.cudnn.deterministic = True`, dynamo-error suppression,
tokenizers-parallelism env var, secret fetching, the two logins, model
construction, model summary, dataloader construction, `Accelerator`
construction, the GPU-count print, loss function, optimizer, the guarded
`wandb.init`, the train call and `wandb.finish`. -/
def mainOps : List MainOp :=
  [MainOp.setSeed 42, MainOp.setCudnnBenchmark false, MainOp.setCudnnDeterministic true,
   MainOp.suppressDynamoErrors, MainOp.disableTokenizersParallelism, MainOp.fetchSecrets,
   MainOp.trackerLoginOp, MainOp.hubLoginOp, MainOp.buildModel, MainOp.summarizeModel,
   MainOp.buildDataloaders, MainOp.buildAccelerator, MainOp.printGpuCount,
   MainOp.buildLossFn, MainOp.buildOptimizer, MainOp.initTrackerIfMain,
   MainOp.callTrain, MainOp.finishTracker]

/-- Recognizes the RNG-seeding operation. -/
def isSeedOp : MainOp → Bool
  | MainOp.setSeed _ => true
  | _ => false

/-- Recognizes the cuDNN benchmark setting. -/
def isBenchmarkOp : MainOp → Bool
  | MainOp.setCudnnBenchmark _ => true
  | _ => false

/-- Recognizes the cuDNN determinism setting. -/
def isDeterministicOp : MainOp → Bool
  | MainOp.setCudnnDeterministic _ => true
  | _ => false

/-- An execution of `main` as a function of the external runtime: `run seed
benchmark deterministic inp` stands for everything the ML runtime computes
(model construction, data order, kernel selection, the training itself) from
the RNG seed in effect, the two cuDNN flags and the external inputs `inp`
(dataset files, pretrained weights, secrets, device topology).  Because
`main` seeds every RNG with the constant 42 and fixes the flags before any
randomized construction, the ambient entropy the process started with is
discarded. -/
def mainExecution {I O : Type} (run : Nat → Bool → Bool → I → O)
    (ambientEntropy : Nat) (inp : I) : O :=
  run 42 false true inp

/-- C10: `main` seeds the RNGs with the fixed value 42 and forces
deterministic cuDNN kernels (benchmark off, deterministic on) — these are
the only seed/cuDNN operations and they precede the construction of the
model, the dataloaders and the optimizer; consequently, in the embedding the
result of an execution does not depend on ambient entropy: two executions
with identical external inputs produce identical results (identical
parameter updates and trained weights). -/
theorem seeded_deterministic_run :
    (mainOps.filter isSeedOp = [MainOp.setSeed 42] ∧
     mainOps.filter isBenchmarkOp = [MainOp.setCudnnBenchmark false] ∧
     mainOps.filter isDeterministicOp = [MainOp.setCudnnDeterministic true]) ∧
    (mainOps.indexOf (MainOp.setSeed 42) < mainOps.indexOf MainOp.buildModel ∧
     mainOps.indexOf (MainOp.setCudnnBenchmark false) < mainOps.indexOf MainOp.buildModel ∧
     mainOps.indexOf (MainOp.setCudnnDeterministic true) < mainOps.indexOf MainOp.buildModel ∧
     mainOps.indexOf MainOp.buildModel < mainOps.indexOf MainOp.buildDataloaders ∧
     mainOps.indexOf MainOp.buildDataloaders < mainOps.indexOf MainOp.buildOptimizer) ∧
    (∀ (I O : Type) (run : Nat → Bool → Bool → I → O) (e1 e2 : Nat) (inp : I),
       mainExecution run e1 inp = mainExecution run e2 inp) := by
  refine ⟨by decide, by decide, ?_⟩
  intro I O run e1 e2 inp
  rfl

end QwenClassifier
